import Mathlib

/-!
Shallow embedding of the contact-book program (src/main.py).

Conventions of the embedding:
* Python `raise ValueError(msg)` becomes `Except.error msg` (or the
  `PyErr` type for the handler layer, where the `input_error` decorator
  distinguishes exception classes).
* `datetime.date` values are triples of year, month, day in the proleptic
  Gregorian calendar; `date + timedelta(days=k)` is `addDays`, k-fold
  calendar successor; `date.weekday()` is `(toOrdinal + 6) % 7` with
  Monday = 0, exactly as in CPython.
* Python dicts (insertion ordered) become association lists where
  inserting an existing key overwrites in place and a new key appends.
* The regex `\d` of `re.fullmatch(r"\d{10}", value)` matches any Unicode
  decimal digit (category Nd) because Python str patterns default to
  re.UNICODE; `isPyDigit` models the Nd ranges of the Basic Multilingual
  Plane (supplementary-plane digits are omitted; no theorem touches them).
  Date strings in `strptime` theorems are restricted to ASCII digits.
-/

deriving instance DecidableEq for Except

/-! ### Calendar dates -/

def isLeap (y : Nat) : Bool :=
  y % 4 == 0 && (y % 100 != 0 || y % 400 == 0)

def daysInMonth (y m : Nat) : Nat :=
  if m == 2 then (if isLeap y then 29 else 28)
  else if m == 4 || m == 6 || m == 9 || m == 11 then 30
  else 31

structure Date where
  year : Nat
  month : Nat
  day : Nat
deriving DecidableEq, Repr

/-- A year-month-day triple denotes an actual `datetime.date`
(month 1..12, day in range, year at least MINYEAR = 1). -/
def validDate (d : Date) : Bool :=
  1 ≤ d.year && 1 ≤ d.month && d.month ≤ 12 && 1 ≤ d.day && d.day ≤ daysInMonth d.year d.month

/-- Python date comparison (lexicographic on year, month, day). -/
def dateLt (a b : Date) : Bool :=
  a.year < b.year ||
    (a.year == b.year && (a.month < b.month ||
      (a.month == b.month && a.day < b.day)))

def dateLe (a b : Date) : Bool :=
  dateLt a b || a == b

/-- Calendar successor: models one day of `timedelta` arithmetic. -/
def nextDay (d : Date) : Date :=
  if d.day < daysInMonth d.year d.month then ⟨d.year, d.month, d.day + 1⟩
  else if d.month < 12 then ⟨d.year, d.month + 1, 1⟩
  else ⟨d.year + 1, 1, 1⟩

/-- `d + timedelta(days = k)` for a nonnegative number of days. -/
def addDays (d : Date) (k : Nat) : Date :=
  match k with
  | 0 => d
  | k + 1 => addDays (nextDay d) k

/-- Days strictly before January 1 of year `y` (proleptic Gregorian),
so that `toOrdinal ⟨1,1,1⟩ = 1` as in `datetime.date.toordinal`. -/
def daysBeforeYear (y : Nat) : Nat :=
  365 * (y - 1) + (y - 1) / 4 - (y - 1) / 100 + (y - 1) / 400

/-- Days in year `y` strictly before month `m`. -/
def daysBeforeMonth (y m : Nat) : Nat :=
  (List.range m).foldl (fun acc i => if 1 ≤ i then acc + daysInMonth y i else acc) 0

def toOrdinal (d : Date) : Nat :=
  daysBeforeYear d.year + daysBeforeMonth d.year d.month + d.day

/-- `date.weekday()`: Monday = 0 .. Sunday = 6. -/
def weekday (d : Date) : Nat :=
  (toOrdinal d + 6) % 7

/-- `date.replace(year = y)`: keeps month and day; raises
`ValueError("day is out of range for month")` when the day does not
exist in that month of the new year (February 29 in a non-leap year). -/
def replaceYear (d : Date) (y : Nat) : Except String Date :=
  if d.day ≤ daysInMonth y d.month then .ok ⟨y, d.month, d.day⟩
  else .error "day is out of range for month"

/-! ### Digits, parsing and formatting -/

/-- The Nd (decimal digit) ranges of the Basic Multilingual Plane:
the character class matched by Python `\d` on str patterns. -/
def pyDigitRanges : List (Nat × Nat) :=
  [(0x30, 0x39), (0x660, 0x669), (0x6F0, 0x6F9), (0x7C0, 0x7C9),
   (0x966, 0x96F), (0x9E6, 0x9EF), (0xA66, 0xA6F), (0xAE6, 0xAEF),
   (0xB66, 0xB6F), (0xBE6, 0xBEF), (0xC66, 0xC6F), (0xCE6, 0xCEF),
   (0xD66, 0xD6F), (0xDE6, 0xDEF), (0xE50, 0xE59), (0xED0, 0xED9),
   (0xF20, 0xF29), (0x1040, 0x1049), (0x1090, 0x1099), (0x17E0, 0x17E9),
   (0x1810, 0x1819), (0x1946, 0x194F), (0x19D0, 0x19D9), (0x1A80, 0x1A89),
   (0x1A90, 0x1A99), (0x1B50, 0x1B59), (0x1BB0, 0x1BB9), (0x1C40, 0x1C49),
   (0x1C50, 0x1C59), (0xA620, 0xA629), (0xA8D0, 0xA8D9), (0xA900, 0xA909),
   (0xA9D0, 0xA9D9), (0xA9F0, 0xA9F9), (0xAA50, 0xAA59), (0xABF0, 0xABF9),
   (0xFF10, 0xFF19)]

def isPyDigit (c : Char) : Bool :=
  pyDigitRanges.any (fun r => r.1 ≤ c.toNat && c.toNat ≤ r.2)

/-- Matcher for the anchored regex of `re.fullmatch(r"\d{n}", s)`:
exactly `n` decimal digits and nothing else. -/
def matchRepDigit : Nat → List Char → Bool
  | 0, [] => true
  | 0, _ :: _ => false
  | _ + 1, [] => false
  | n + 1, c :: cs => isPyDigit c && matchRepDigit n cs

def digitChar (n : Nat) : Char := Char.ofNat (48 + n)

/-- Numeric value of an ASCII digit string (how `_strptime` converts
a matched group with `int`). -/
def digitsToNat (cs : List Char) : Nat :=
  cs.foldl (fun acc c => 10 * acc + (c.toNat - 48)) 0

/-- Zero-padded two-digit rendering, as `strftime` "%d" and "%m". -/
def pad2 (n : Nat) : List Char :=
  [digitChar (n / 10 % 10), digitChar (n % 10)]

def natDigitsAux : Nat → Nat → List Char
  | 0, _ => []
  | _ + 1, 0 => []
  | fuel + 1, n => natDigitsAux fuel (n / 10) ++ [digitChar (n % 10)]

/-- Decimal rendering of a natural number, no padding: `strftime`
"%Y" on a year at least 1000 (below 1000 the padding of %Y is
platform dependent; every theorem stays at 4-digit years). -/
def natDigits (n : Nat) : List Char :=
  if n == 0 then ['0'] else natDigitsAux n n

/-- `strftime("%d.%m.%Y")`. -/
def fmtDate (d : Date) : String :=
  String.mk (pad2 d.day ++ '.' :: (pad2 d.month ++ '.' :: natDigits d.year))

/-- Split a character list at every literal dot. -/
def splitDots : List Char → List (List Char)
  | [] => [[]]
  | c :: rest =>
    if c = '.' then [] :: splitDots rest
    else
      match splitDots rest with
      | t :: ts => (c :: t) :: ts
      | [] => [[c]]

/-- The `_strptime` group for "%d": one digit 1-9, or two digits with
value 01..31 (`3[01]|[12]\d|0[1-9]|[1-9]`). Restricted to ASCII digits. -/
def dayToken (cs : List Char) : Bool :=
  cs.all Char.isDigit &&
    ((cs.length == 1 || cs.length == 2) && 1 ≤ digitsToNat cs && digitsToNat cs ≤ 31)

/-- The `_strptime` group for "%m": `1[0-2]|0[1-9]|[1-9]`. -/
def monthToken (cs : List Char) : Bool :=
  cs.all Char.isDigit &&
    ((cs.length == 1 || cs.length == 2) && 1 ≤ digitsToNat cs && digitsToNat cs ≤ 12)

/-- The `_strptime` group for "%Y": exactly four digits. -/
def yearToken (cs : List Char) : Bool :=
  cs.all Char.isDigit && cs.length == 4

/-- `datetime.strptime(value, "%d.%m.%Y").date()`: `none` models the
ValueError raised either by the regex mismatch or by the
`datetime` constructor (day out of range for the month, year below
MINYEAR).  Digits are restricted to ASCII. -/
def parseDMY (s : String) : Option Date :=
  match splitDots s.data with
  | [ds, ms, ys] =>
    if dayToken ds && monthToken ms && yearToken ys then
      let d := digitsToNat ds
      let m := digitsToNat ms
      let y := digitsToNat ys
      if 1 ≤ y && d ≤ daysInMonth y m then some ⟨y, m, d⟩ else none
    else none
  | _ => none

/-! ### Validated fields -/

/-- `Name.__init__`: any falsy (empty) string is rejected. -/
def Name.init (value : String) : Except String String :=
  if value == "" then .error "Name cannot be empty" else .ok value

/-- `Phone.__init__`: `re.fullmatch(r"\d{10}", value)` or ValueError. -/
def Phone.init (value : String) : Except String String :=
  if matchRepDigit 10 value.data then .ok value
  else .error "Phone number must be 10 digits"

/-- `Birthday.__init__`: parse "%d.%m.%Y", then reject dates strictly
after `today` (`is_future_date`). `today` is passed explicitly, where
the source reads the clock. -/
def Birthday.init (today : Date) (value : String) : Except String Date :=
  match parseDMY value with
  | none => .error "Invalid date format. Use DD.MM.YYYY"
  | some d => if dateLt today d then .error "Birthday cannot be in the future" else .ok d

/-! ### Contact Record -/

/-- `Record`: `name` is the Name value, `phones` the list of Phone
values in insertion order, `birthday` the stored date, if any. -/
structure Record where
  name : String
  phones : List String
  birthday : Option Date
deriving DecidableEq, Repr

/-- `Record.__init__`: validates the name, starts with no phones and
no birthday. -/
def Record.init (name : String) : Except String Record :=
  (Name.init name).map (fun n => ⟨n, [], none⟩)

/-- `Record.add_phone`: duplicate check on the raw string first, then
Phone validation, then append. -/
def Record.add_phone (r : Record) (phone_number : String) : Except String Record :=
  if r.phones.contains phone_number then .error "This phone number is already added."
  else (Phone.init phone_number).map (fun v => ⟨r.name, r.phones ++ [v], r.birthday⟩)

/-- `Record.remove_phone`: membership check, then filter out every
phone with that value. -/
def Record.remove_phone (r : Record) (phone_number : String) : Except String Record :=
  if r.phones.contains phone_number then
    .ok ⟨r.name, r.phones.filter (fun p => p ≠ phone_number), r.birthday⟩
  else .error "Phone number not found."

/-- The for-loop of `Record.edit_phone`: first phone equal to `old`
has its value overwritten by `Phone(new).value`; no match raises. -/
def editLoop (old new : String) : List String → Except String (List String)
  | [] => .error "Phone number not found"
  | p :: ps =>
    if p == old then (Phone.init new).map (fun v => v :: ps)
    else (editLoop old new ps).map (fun t => p :: t)

/-- `Record.edit_phone`: returns the success string of the source. -/
def Record.edit_phone (r : Record) (old new : String) : Except String (String × Record) :=
  (editLoop old new r.phones).map
    (fun ps => ("Phone number updated.", ⟨r.name, ps, r.birthday⟩))

/-- `Record.find_phone`. -/
def Record.find_phone (r : Record) (phone_number : String) : Option String :=
  r.phones.find? (fun p => p == phone_number)

/-- `Record.get_phones`. -/
def Record.get_phones (r : Record) : String :=
  if r.phones.isEmpty then "No phone numbers"
  else String.intercalate "; " r.phones

/-- `Record.add_birthday`: a second set raises; otherwise Birthday
validation, then store. -/
def Record.add_birthday (r : Record) (today : Date) (birthday : String) : Except String Record :=
  match r.birthday with
  | some _ => .error "Birthday is already set and cannot be changed."
  | none => (Birthday.init today birthday).map (fun d => ⟨r.name, r.phones, some d⟩)

/-- `Record.show_birthday`. -/
def Record.show_birthday (r : Record) : String :=
  match r.birthday with
  | some d => fmtDate d
  | none => "Birthday not set"

/-- One phone operation of the Record interface; a raising call leaves
the record unchanged (the exception aborts before any mutation). -/
inductive PhoneOp where
  | add (p : String)
  | remove (p : String)
  | edit (old new : String)
deriving DecidableEq, Repr

/-- Whether an operation is a phone edit. -/
def PhoneOp.isEdit : PhoneOp → Bool
  | .edit _ _ => true
  | _ => false

def applyPhoneOp (r : Record) : PhoneOp → Record
  | .add p => match r.add_phone p with | .ok r' => r' | .error _ => r
  | .remove p => match r.remove_phone p with | .ok r' => r' | .error _ => r
  | .edit o n => match r.edit_phone o n with | .ok x => x.2 | .error _ => r

def runPhoneOps (r : Record) (ops : List PhoneOp) : Record :=
  ops.foldl applyPhoneOp r

/-! ### Address Book -/

/-- `AddressBook.data`: a Python dict, name to record, insertion
ordered. -/
def Book := List (String × Record)

instance : DecidableEq Book := by
  unfold Book
  infer_instance

/-- Dict assignment `self.data[key] = record`: overwrite in place if
the key exists, else append. -/
def bookInsert (book : Book) (key : String) (r : Record) : Book :=
  match book with
  | [] => [(key, r)]
  | (k, v) :: rest =>
    if k == key then (k, r) :: rest else (k, v) :: bookInsert rest key r

/-- `AddressBook.add_record`: keyed by the name value of the record. -/
def add_record (book : Book) (r : Record) : Book :=
  bookInsert book r.name r

/-- `AddressBook.find`: `dict.get(name, None)`. -/
def bookFind (book : Book) (name : String) : Option Record :=
  (book.find? (fun kv => kv.1 == name)).map Prod.snd

/-- `AddressBook.delete`. -/
def bookDelete (book : Book) (name : String) : Book :=
  book.filter (fun kv => kv.1 ≠ name)

/-- `self.data.values()` in insertion order. -/
def bookValues (book : Book) : List Record :=
  book.map Prod.snd

/-- One output dict of `get_upcoming_birthdays`. -/
structure Entry where
  name : String
  congratulation_date : String
deriving DecidableEq, Repr

/-- The roll-forward of the loop: this year, then next year if this
year has already passed; either `replace` may raise. -/
def occurrence (today b : Date) : Except String Date := do
  let bty ← replaceYear b today.year
  if dateLt bty today then replaceYear b (today.year + 1) else .ok bty

/-- The weekend shift of the loop: Saturday (5) and Sunday (6) move to
the next Monday by adding `7 - weekday` days. -/
def congratulationDate (d : Date) : Date :=
  if weekday d == 5 || weekday d == 6 then addDays d (7 - weekday d) else d

/-- The loop body of `get_upcoming_birthdays` for one record: zero or
one entry, or a ValueError escaping from `replace`. -/
def processRecord (today : Date) (r : Record) : Except String (List Entry) :=
  match r.birthday with
  | none => .ok []
  | some b => do
    let bty ← occurrence today b
    if dateLe today bty && dateLe bty (addDays today 7) then
      .ok [⟨r.name, fmtDate (congratulationDate bty)⟩]
    else
      .ok []

/-- `AddressBook.get_upcoming_birthdays`, over the records in
iteration order; `today` is passed explicitly. -/
def get_upcoming_birthdays (today : Date) (rs : List Record) : Except String (List Entry) :=
  match rs with
  | [] => .ok []
  | r :: rest => do
    let es ← processRecord today r
    let tail ← get_upcoming_birthdays today rest
    .ok (es ++ tail)

/-- `AddressBook.list_all_contacts`. -/
def list_all_contacts (book : Book) : String :=
  if book.isEmpty then "No contacts in the address book."
  else String.intercalate "\n" (book.map (fun kv => kv.1 ++ ": " ++ kv.2.get_phones))

/-! ### Command handlers and the input_error decorator -/

/-- The exception classes distinguished by `input_error`. -/
inductive PyErr where
  | keyError (m : String)
  | valueError (m : String)
  | indexError (m : String)
  | otherExc (m : String)
deriving DecidableEq, Repr

/-- A handler returns either a plain message or, for `birthdays`, the
structured list that the loop prints. -/
inductive HandlerOut where
  | msg (s : String)
  | entries (l : List Entry)
deriving DecidableEq, Repr

/-- The except-clauses of `input_error`, as a total translation of
every exception into a user-facing line. -/
def input_error_msg : PyErr → String
  | .keyError _ => "Contact not found."
  | .valueError m => "Error: " ++ m
  | .indexError _ => "Error: Missing required arguments."
  | .otherExc m => "Unexpected error: " ++ m

/-- The `input_error` decorator: run the handler; a raised exception is
replaced by its message, the mutations already done to the book stay. -/
def input_error (f : List String → Book → Except PyErr HandlerOut × Book)
    (args : List String) (book : Book) : HandlerOut × Book :=
  match f args book with
  | (.ok o, b) => (o, b)
  | (.error e, b) => (.msg (input_error_msg e), b)

/-- Body of `add_contact` before the decorator.  Note the source adds a
fresh record to the book before `add_phone` runs, so a failing phone
still leaves the new (phoneless) record in the book. -/
def add_contact_inner (args : List String) (book : Book) : Except PyErr HandlerOut × Book :=
  match args with
  | name :: phone :: _ =>
    match bookFind book name with
    | some r =>
      if phone == "" then (.ok (.msg "Contact updated."), book)
      else
        match r.add_phone phone with
        | .ok r' => (.ok (.msg "Contact updated."), bookInsert book name r')
        | .error m => (.error (.valueError m), book)
    | none =>
      match Record.init name with
      | .error m => (.error (.valueError m), book)
      | .ok r0 =>
        if phone == "" then (.ok (.msg "Contact added."), add_record book r0)
        else
          match r0.add_phone phone with
          | .ok r1 => (.ok (.msg "Contact added."), add_record (add_record book r0) r1)
          | .error m => (.error (.valueError m), add_record book r0)
  | _ => (.error (.valueError "Give me name and phone please."), book)

/-- Body of `change_contact`: the exact three-way unpacking raises on
more than three arguments even though only fewer-than-three is checked. -/
def change_contact_inner (args : List String) (book : Book) : Except PyErr HandlerOut × Book :=
  match args with
  | [name, old_phone, new_phone] =>
    match bookFind book name with
    | none => (.ok (.msg "Contact not found."), book)
    | some r =>
      match r.edit_phone old_phone new_phone with
      | .ok x => (.ok (.msg x.1), bookInsert book name x.2)
      | .error m => (.error (.valueError m), book)
  | _ :: _ :: _ :: _ :: _ => (.error (.valueError "too many values to unpack (expected 3)"), book)
  | _ => (.error (.valueError "Name, old phone, and new phone are required."), book)

/-- Body of `show_phone`. -/
def show_phone_inner (args : List String) (book : Book) : Except PyErr HandlerOut × Book :=
  match args with
  | [] => (.error (.valueError "Name is required."), book)
  | name :: _ =>
    match bookFind book name with
    | none => (.ok (.msg "Contact not found."), book)
    | some r => (.ok (.msg (name ++ "\x27s phone numbers: " ++ r.get_phones)), book)

/-- Body of `show_all_contacts`. -/
def show_all_inner (_ : List String) (book : Book) : Except PyErr HandlerOut × Book :=
  (.ok (.msg (list_all_contacts book)), book)

/-- Body of the `add_birthday` handler; `today` stands for the clock
read inside Birthday validation. -/
def add_birthday_inner (today : Date) (args : List String) (book : Book) :
    Except PyErr HandlerOut × Book :=
  match args with
  | [name, date] =>
    match bookFind book name with
    | none => (.ok (.msg "Contact not found."), book)
    | some r =>
      match r.add_birthday today date with
      | .ok r' => (.ok (.msg "Birthday added."), bookInsert book name r')
      | .error m => (.error (.valueError m), book)
  | _ :: _ :: _ :: _ => (.error (.valueError "too many values to unpack (expected 2)"), book)
  | _ => (.error (.valueError "Name and birthday are required."), book)

/-- Body of the `show_birthday` handler. -/
def show_birthday_inner (args : List String) (book : Book) : Except PyErr HandlerOut × Book :=
  match args with
  | [] => (.error (.valueError "Name is required."), book)
  | name :: _ =>
    match bookFind book name with
    | none => (.ok (.msg "Contact not found."), book)
    | some r => (.ok (.msg (name ++ "\x27s birthday: " ++ r.show_birthday)), book)

/-- Body of the `birthdays` handler: the ValueError that
`get_upcoming_birthdays` can raise escapes to the decorator. -/
def birthdays_inner (today : Date) (_ : List String) (book : Book) :
    Except PyErr HandlerOut × Book :=
  match get_upcoming_birthdays today (bookValues book) with
  | .ok l => (.ok (.entries l), book)
  | .error m => (.error (.valueError m), book)

/-- The seven decorated handlers reachable from the dispatch loop. -/
inductive Cmd where
  | add | change | phone | all | addBirthday | showBirthday | birthdays
deriving DecidableEq, Repr

def innerOf (today : Date) : Cmd → (List String → Book → Except PyErr HandlerOut × Book)
  | .add => add_contact_inner
  | .change => change_contact_inner
  | .phone => show_phone_inner
  | .all => show_all_inner
  | .addBirthday => add_birthday_inner today
  | .showBirthday => show_birthday_inner
  | .birthdays => birthdays_inner today

/-- What the dispatch loop calls: every handler behind `input_error`. -/
def run_handler (today : Date) (c : Cmd) (args : List String) (book : Book) : HandlerOut × Book :=
  input_error (innerOf today c) args book

/-- The decorated `add_contact` (the form the loop calls for `add`). -/
def add_contact (args : List String) (book : Book) : HandlerOut × Book :=
  input_error add_contact_inner args book

/-! ### Concrete inputs used by witnesses and counterexamples -/

/-- Ten Arabic-Indic digits (U+0660), a string of Unicode decimal
digits containing no ASCII character. -/
def arabicTen : String := String.mk (List.replicate 10 (Char.ofNat 0x660))

/-- An operation sequence whose final edit overwrites one phone with
the value of another phone of the same record. -/
def dupOps : List PhoneOp :=
  [.add "1111111111", .add "2222222222", .edit "1111111111" "2222222222"]

/-! ### Helper lemmas -/

theorem matchRepDigit_iff (n : Nat) (cs : List Char) :
    matchRepDigit n cs = true ↔ cs.length = n ∧ ∀ c ∈ cs, isPyDigit c = true := by
  induction cs generalizing n with
  | nil => cases n <;> simp [matchRepDigit]
  | cons c cs ih =>
    cases n with
    | zero => simp [matchRepDigit]
    | succ n => simp [matchRepDigit, ih]; tauto

theorem dateLt_false_iff (a b : Date) : dateLt a b = false ↔ dateLe b a = true := by
  rcases a with ⟨y1, m1, d1⟩
  rcases b with ⟨y2, m2, d2⟩
  simp [dateLt, dateLe, Date.mk.injEq]
  omega

/-! ### Claims about Phone validation (C2) -/

/-- Claim C2, counterexample: `arabicTen` consists of ten characters
none of which is an ASCII digit (none is ASCII at all), yet Phone
construction succeeds and stores it, so a string outside the
ten-ASCII-digit set does not always fail. -/
theorem phone_accepts_nonascii_digits :
    Phone.init arabicTen = .ok arabicTen
    ∧ arabicTen.data.length = 10
    ∧ ∀ c ∈ arabicTen.data, 127 < c.toNat := by
  refine ⟨by decide, by decide, by decide⟩

/-- Claim C2, amended: Phone construction succeeds and stores the
string exactly when it consists of ten Unicode decimal digits (the
characters matched by Python `\d`, which include every ASCII digit);
every other string fails with "Phone number must be 10 digits". -/
theorem phone_init_ten_unicode_digits (s : String) :
    (Phone.init s = .ok s ↔ s.data.length = 10 ∧ ∀ c ∈ s.data, isPyDigit c = true)
    ∧ (¬ (s.data.length = 10 ∧ ∀ c ∈ s.data, isPyDigit c = true) →
        Phone.init s = .error "Phone number must be 10 digits") := by
  constructor
  · unfold Phone.init
    constructor
    · intro h
      by_cases hm : matchRepDigit 10 s.data = true
      · exact (matchRepDigit_iff 10 s.data).mp hm
      · simp [hm] at h
    · intro h
      simp [(matchRepDigit_iff 10 s.data).mpr h]
  · intro h
    unfold Phone.init
    have hm : matchRepDigit 10 s.data ≠ true := fun hc => h ((matchRepDigit_iff 10 s.data).mp hc)
    simp [hm]

/-- Witness for the amended C2 at a concrete ASCII input. -/
theorem phone_init_ten_unicode_digits_witness :
    Phone.init "1234567890" = .ok "1234567890"
    ∧ Phone.init "123-456-78" = .error "Phone number must be 10 digits" := by
  refine ⟨(phone_init_ten_unicode_digits "1234567890").1.mpr (by decide),
          (phone_init_ten_unicode_digits "123-456-78").2 (by decide)⟩

/-! ### Claim C5: duplicate add_phone -/

/-- Claim C5: a phone already present makes `add_phone` raise
"This phone number is already added.", and the failed call leaves the
record (hence its phone count) unchanged. -/
theorem add_phone_duplicate_error (r : Record) (p : String) (h : p ∈ r.phones) :
    r.add_phone p = .error "This phone number is already added."
    ∧ applyPhoneOp r (.add p) = r := by
  have hc : r.phones.contains p = true := by
    simpa [List.elem_iff] using h
  have h1 : r.add_phone p = .error "This phone number is already added." := by
    simp [Record.add_phone, hc, h]
  exact ⟨h1, by simp [applyPhoneOp, h1]⟩

/-- Witness for C5 at a concrete record. -/
theorem add_phone_duplicate_error_witness :
    Record.add_phone ⟨"A", ["1234567890"], none⟩ "1234567890"
      = .error "This phone number is already added."
    ∧ applyPhoneOp ⟨"A", ["1234567890"], none⟩ (.add "1234567890")
      = ⟨"A", ["1234567890"], none⟩ :=
  add_phone_duplicate_error ⟨"A", ["1234567890"], none⟩ "1234567890" (by decide)

/-! ### Claim C9: the input_error boundary -/

/-- Claim C9: every dispatched handler is the decorated one, and
whenever the handler body raises any exception `e`, the call returns
the single translated message of `input_error` (with the book as
mutated so far) instead of propagating: no handler invocation is
fatal. -/
theorem handlers_never_propagate (today : Date) (c : Cmd) (args : List String) (book : Book) :
    run_handler today c args book
      = (match innerOf today c args book with
         | (.ok o, b) => (o, b)
         | (.error e, b) => (.msg (input_error_msg e), b))
    ∧ ∀ e b, innerOf today c args book = (.error e, b) →
        run_handler today c args book = (.msg (input_error_msg e), b) := by
  refine ⟨rfl, ?_⟩
  intro e b h
  simp [run_handler, input_error, h]

/-- Witness for C9: a raising call of the add handler comes back as a
plain message. -/
theorem handlers_never_propagate_witness :
    run_handler ⟨2024, 1, 1⟩ .add [] []
      = (.msg (input_error_msg (.valueError "Give me name and phone please.")), [])
    ∧ input_error_msg (.valueError "Give me name and phone please.")
      = "Error: Give me name and phone please." := by
  refine ⟨(handlers_never_propagate ⟨2024, 1, 1⟩ .add [] []).2 _ _ (by rfl), by decide⟩

/-! ### Claim C6: birthday settable once -/

/-- Claim C6: with a birthday already set, `add_birthday` raises
"Birthday is already set and cannot be changed." and (also through the
handler) the stored record is unchanged; without one, the parsed date
is stored exactly when the value parses as a non-future DD.MM.YYYY
date, and the Birthday validation errors propagate otherwise. -/
theorem add_birthday_once_spec (r : Record) (today : Date) (v : String) :
    (∀ b, r.birthday = some b →
      r.add_birthday today v = .error "Birthday is already set and cannot be changed."
      ∧ ∀ (book : Book) (name : String), bookFind book name = some r →
          add_birthday_inner today [name, v] book
            = (.error (.valueError "Birthday is already set and cannot be changed."), book))
    ∧ (r.birthday = none →
      (∀ d, parseDMY v = some d → dateLe d today = true →
          r.add_birthday today v = .ok ⟨r.name, r.phones, some d⟩)
      ∧ (parseDMY v = none →
          r.add_birthday today v = .error "Invalid date format. Use DD.MM.YYYY")
      ∧ (∀ d, parseDMY v = some d → dateLt today d = true →
          r.add_birthday today v = .error "Birthday cannot be in the future")) := by
  constructor
  · intro b hb
    have h1 : r.add_birthday today v = .error "Birthday is already set and cannot be changed." := by
      simp [Record.add_birthday, hb]
    refine ⟨h1, ?_⟩
    intro book name hf
    simp [add_birthday_inner, hf, h1]
  · intro hb
    refine ⟨?_, ?_, ?_⟩
    · intro d hd hle
      have hlt : dateLt today d = false := (dateLt_false_iff today d).mpr hle
      simp [Record.add_birthday, hb, Birthday.init, hd, hlt, Except.map]
    · intro hd
      simp [Record.add_birthday, hb, Birthday.init, hd, Except.map]
    · intro d hd hlt
      simp [Record.add_birthday, hb, Birthday.init, hd, hlt, Except.map]

/-- Witness for C6: a second set fails, a first set stores the date. -/
theorem add_birthday_once_spec_witness :
    Record.add_birthday ⟨"A", [], some ⟨2000, 1, 1⟩⟩ ⟨2024, 1, 1⟩ "02.02.2002"
      = .error "Birthday is already set and cannot be changed."
    ∧ Record.add_birthday ⟨"A", [], none⟩ ⟨2024, 1, 1⟩ "02.02.2002"
      = .ok ⟨"A", [], some ⟨2002, 2, 2⟩⟩ := by
  refine ⟨((add_birthday_once_spec ⟨"A", [], some ⟨2000, 1, 1⟩⟩ ⟨2024, 1, 1⟩ "02.02.2002").1
            ⟨2000, 1, 1⟩ rfl).1,
          ((add_birthday_once_spec ⟨"A", [], none⟩ ⟨2024, 1, 1⟩ "02.02.2002").2 rfl).1
            ⟨2002, 2, 2⟩ (by decide) (by decide)⟩

/-! ### Claim C3: edit_phone -/

theorem editLoop_not_mem (old nw : String) (ps : List String) (h : old ∉ ps) :
    editLoop old nw ps = .error "Phone number not found" := by
  induction ps with
  | nil => rfl
  | cons p ps ih =>
    rw [List.mem_cons] at h
    push_neg at h
    have hne : (p == old) = false := by
      simp only [beq_eq_false_iff_ne, ne_eq]
      exact fun hc => h.1 hc.symm
    simp [editLoop, hne, ih h.2, Except.map]

theorem editLoop_found (old nw : String) (pre post : List String) (h : old ∉ pre) :
    editLoop old nw (pre ++ old :: post) = (Phone.init nw).map (fun v => pre ++ v :: post) := by
  induction pre with
  | nil => cases hP : Phone.init nw <;> simp [editLoop, hP, Except.map]
  | cons p pre ih =>
    rw [List.mem_cons] at h
    push_neg at h
    have hne : (p == old) = false := by
      simp only [beq_eq_false_iff_ne, ne_eq]
      exact fun hc => h.1 hc.symm
    cases hP : Phone.init nw <;>
      simp [editLoop, hne, ih h.2, hP, Except.map]

/-- Claim C3: `edit_phone` with an absent old number raises
"Phone number not found" and leaves the phones unchanged; with the old
number at its first position between `pre` and `post`, a valid new
number replaces exactly that element in place (preserving position)
and the success indicator is returned, while an invalid new number
propagates the Phone validation error. -/
theorem edit_phone_first_match_spec (r : Record) (old nw : String) :
    (old ∉ r.phones →
      r.edit_phone old nw = .error "Phone number not found"
      ∧ applyPhoneOp r (.edit old nw) = r)
    ∧ (∀ pre post, r.phones = pre ++ old :: post → old ∉ pre →
      (∀ v, Phone.init nw = .ok v →
        r.edit_phone old nw
          = .ok ("Phone number updated.", ⟨r.name, pre ++ v :: post, r.birthday⟩))
      ∧ (∀ m, Phone.init nw = .error m → r.edit_phone old nw = .error m)) := by
  constructor
  · intro h
    have h1 : r.edit_phone old nw = .error "Phone number not found" := by
      simp [Record.edit_phone, editLoop_not_mem old nw r.phones h, Except.map]
    exact ⟨h1, by simp [applyPhoneOp, h1]⟩
  · intro pre post hsplit hpre
    have hloop := editLoop_found old nw pre post hpre
    constructor
    · intro v hv
      simp [Record.edit_phone, hsplit, hloop, hv, Except.map]
    · intro m hm
      simp [Record.edit_phone, hsplit, hloop, hm, Except.map]

/-- Witness for C3: in-place replacement of the first match, and the
not-found failure. -/
theorem edit_phone_first_match_spec_witness :
    Record.edit_phone ⟨"A", ["1111111111", "2222222222"], none⟩ "2222222222" "3333333333"
      = .ok ("Phone number updated.", ⟨"A", ["1111111111", "3333333333"], none⟩)
    ∧ Record.edit_phone ⟨"A", ["1111111111"], none⟩ "9999999999" "3333333333"
      = .error "Phone number not found" := by
  refine ⟨((edit_phone_first_match_spec ⟨"A", ["1111111111", "2222222222"], none⟩
              "2222222222" "3333333333").2 ["1111111111"] [] (by decide) (by decide)).1
            "3333333333" (by decide),
          ((edit_phone_first_match_spec ⟨"A", ["1111111111"], none⟩
              "9999999999" "3333333333").1 (by decide)).1⟩

/-! ### Claim C4: phone uniqueness invariant -/

theorem add_preserves_nodup (r : Record) (p : String) (h : r.phones.Nodup) :
    (applyPhoneOp r (.add p)).phones.Nodup := by
  by_cases hc : p ∈ r.phones
  · have hA : r.add_phone p = .error "This phone number is already added." := by
      have hcontains : r.phones.contains p = true := by simpa [List.elem_iff] using hc
      simp [Record.add_phone, hcontains, hc]
    simpa [applyPhoneOp, hA] using h
  · by_cases hm : matchRepDigit 10 p.data = true
    · have hA : r.add_phone p = .ok ⟨r.name, r.phones ++ [p], r.birthday⟩ := by
        simp [Record.add_phone, hc, Phone.init, hm, Except.map]
      have : (applyPhoneOp r (.add p)) = ⟨r.name, r.phones ++ [p], r.birthday⟩ := by
        simp [applyPhoneOp, hA]
      rw [this]
      simp [List.nodup_append, h, hc]
    · have hA : r.add_phone p = .error "Phone number must be 10 digits" := by
        simp [Record.add_phone, hc, Phone.init, hm, Except.map]
      simpa [applyPhoneOp, hA] using h

theorem remove_preserves_nodup (r : Record) (p : String) (h : r.phones.Nodup) :
    (applyPhoneOp r (.remove p)).phones.Nodup := by
  by_cases hc : p ∈ r.phones
  · have hA : r.remove_phone p
        = .ok ⟨r.name, r.phones.filter (fun q => q ≠ p), r.birthday⟩ := by
      have hcontains : r.phones.contains p = true := by simpa [List.elem_iff] using hc
      simp [Record.remove_phone, hcontains, hc]
    have : (applyPhoneOp r (.remove p))
        = ⟨r.name, r.phones.filter (fun q => q ≠ p), r.birthday⟩ := by
      simp [applyPhoneOp, hA]
    rw [this]
    exact h.filter _
  · have hA : r.remove_phone p = .error "Phone number not found." := by
      simp [Record.remove_phone, hc]
    simpa [applyPhoneOp, hA] using h

/-- Claim C4, counterexample: from a fresh record, two adds followed by
an edit of the first phone to the value of the second leave the record
with a duplicated phone value, so the uniqueness invariant does not
survive arbitrary operation sequences. -/
theorem phones_unique_ctrex :
    (runPhoneOps ⟨"A", [], none⟩ dupOps).phones = ["2222222222", "2222222222"]
    ∧ ¬ (runPhoneOps ⟨"A", [], none⟩ dupOps).phones.Nodup :=
  ⟨by decide, by decide⟩

/-- Claim C4, amended: after any sequence of `add_phone` and
`remove_phone` operations no two phones of a record hold the same
digit-string; `edit_phone` is excluded because it does not check the
new value against the existing phones and can introduce a duplicate. -/
theorem phones_unique_add_remove (r : Record) (ops : List PhoneOp)
    (h : r.phones.Nodup) (hops : ∀ o ∈ ops, o.isEdit = false) :
    (runPhoneOps r ops).phones.Nodup := by
  induction ops generalizing r with
  | nil => exact h
  | cons o ops ih =>
    have hstep : (applyPhoneOp r o).phones.Nodup := by
      cases o with
      | add p => exact add_preserves_nodup r p h
      | remove p => exact remove_preserves_nodup r p h
      | edit a b =>
        have := hops (.edit a b) (List.mem_cons_self _ _)
        simp [PhoneOp.isEdit] at this
    simpa [runPhoneOps] using
      ih (applyPhoneOp r o) hstep (fun o' ho' => hops o' (List.mem_cons_of_mem _ ho'))

/-- Witness for the amended C4. -/
theorem phones_unique_add_remove_witness :
    (runPhoneOps ⟨"A", ["1234567890"], none⟩
      [.add "0987654321", .remove "1234567890"]).phones.Nodup :=
  phones_unique_add_remove ⟨"A", ["1234567890"], none⟩
    [.add "0987654321", .remove "1234567890"] (by decide) (by decide)

/-! ### Claim C7: the add handler -/

theorem bookFind_insert_self (book : Book) (k : String) (r : Record) :
    bookFind (bookInsert book k r) k = some r := by
  induction book with
  | nil => simp [bookInsert, bookFind]
  | cons kv rest ih =>
    rcases kv with ⟨k2, v⟩
    by_cases hk : k2 = k
    · subst hk
      simp [bookInsert, bookFind]
    · have hkb : (k2 == k) = false := by simp [hk]
      have h2 : bookInsert ((k2, v) :: rest) k r = (k2, v) :: bookInsert rest k r := by
        simp [bookInsert, hkb]
      rw [h2]
      simpa [bookFind, hkb] using ih

/-- Claim C7, counterexample: the argument list ["Bob", "123"] has a
name and a phone token and "Bob" is absent from the empty book, yet
the add handler does not report "Contact added."; the invalid phone
surfaces the Phone validation error (and the new record is still
created, phoneless). -/
theorem add_contact_ctrex :
    bookFind [] "Bob" = none
    ∧ ("Bob" :: "123" :: []).length ≥ 2
    ∧ add_contact ["Bob", "123"] []
        = (.msg "Error: Phone number must be 10 digits", [("Bob", ⟨"Bob", [], none⟩)])
    ∧ (add_contact ["Bob", "123"] []).1 ≠ .msg "Contact added." :=
  ⟨rfl, by decide, by decide, by decide⟩

/-- Claim C7, amended: for a nonempty name and a valid 10-digit phone
token, the add handler reports "Contact added." and creates the
record when the name is absent, and reports "Contact updated." and
appends the phone when the name is present (and the phone is not
already on the record); with fewer than 2 arguments it returns the
message of the raised error, "Error: Give me name and phone
please.". -/
theorem add_contact_spec (book : Book) (name phone : String) (rest : List String)
    (hname : name ≠ "") (hphone : matchRepDigit 10 phone.data = true) :
    (bookFind book name = none →
      add_contact (name :: phone :: rest) book
        = (.msg "Contact added.",
           add_record (add_record book ⟨name, [], none⟩) ⟨name, [phone], none⟩)
      ∧ bookFind (add_contact (name :: phone :: rest) book).2 name
        = some ⟨name, [phone], none⟩)
    ∧ (∀ r, bookFind book name = some r → phone ∉ r.phones →
      add_contact (name :: phone :: rest) book
        = (.msg "Contact updated.",
           bookInsert book name ⟨r.name, r.phones ++ [phone], r.birthday⟩)
      ∧ bookFind (add_contact (name :: phone :: rest) book).2 name
        = some ⟨r.name, r.phones ++ [phone], r.birthday⟩)
    ∧ (∀ (b : Book) (args : List String), args.length < 2 →
      add_contact args b = (.msg "Error: Give me name and phone please.", b)) := by
  have hφ : phone ≠ "" := by
    intro hc
    rw [hc] at hphone
    simp [matchRepDigit] at hphone
  refine ⟨?_, ?_, ?_⟩
  · intro hfind
    have hinit : Record.init name = .ok ⟨name, [], none⟩ := by
      simp [Record.init, Name.init, hname, Except.map]
    have hadd : Record.add_phone ⟨name, [], none⟩ phone = .ok ⟨name, [phone], none⟩ := by
      simp [Record.add_phone, Phone.init, hphone, Except.map]
    have heq : add_contact (name :: phone :: rest) book
        = (.msg "Contact added.",
           add_record (add_record book ⟨name, [], none⟩) ⟨name, [phone], none⟩) := by
      simp [add_contact, input_error, add_contact_inner, hfind, hinit, hadd, hφ]
    refine ⟨heq, ?_⟩
    rw [heq]
    exact bookFind_insert_self _ name _
  · intro r hfind hmem
    have hadd : r.add_phone phone = .ok ⟨r.name, r.phones ++ [phone], r.birthday⟩ := by
      have hcontains : r.phones.contains phone = false := by
        cases hE : r.phones.contains phone
        · rfl
        · exact absurd (by simpa [List.elem_iff] using hE) hmem
      simp [Record.add_phone, hmem, hcontains, Phone.init, hphone, Except.map]
    have heq : add_contact (name :: phone :: rest) book
        = (.msg "Contact updated.",
           bookInsert book name ⟨r.name, r.phones ++ [phone], r.birthday⟩) := by
      simp [add_contact, input_error, add_contact_inner, hfind, hadd, hφ]
    refine ⟨heq, ?_⟩
    rw [heq]
    exact bookFind_insert_self _ name _
  · intro b args hlen
    have hs : "Error: " ++ "Give me name and phone please."
        = "Error: Give me name and phone please." := by decide
    match args with
    | [] => simp [add_contact, input_error, add_contact_inner, input_error_msg, hs]
    | [a] => simp [add_contact, input_error, add_contact_inner, input_error_msg, hs]
    | a :: b2 :: t =>
      simp at hlen
      omega

/-- Witness for the amended C7: the Alice scenario. -/
theorem add_contact_spec_witness :
    (add_contact ["Alice", "1234567890"] []).1 = .msg "Contact added."
    ∧ bookFind (add_contact ["Alice", "1234567890"] []).2 "Alice"
      = some ⟨"Alice", ["1234567890"], none⟩
    ∧ (add_contact ["Alice", "0987654321"] (add_contact ["Alice", "1234567890"] []).2).1
      = .msg "Contact updated."
    ∧ (bookFind (add_contact ["Alice", "0987654321"]
          (add_contact ["Alice", "1234567890"] []).2).2 "Alice").map Record.phones
      = some ["1234567890", "0987654321"] := by
  have h := (add_contact_spec [] "Alice" "1234567890" [] (by decide) (by decide)).1 rfl
  refine ⟨by rw [h.1], h.2, by decide, by decide⟩

/-! ### Claim C10: the February 29 error branch -/

/-- Claim C10: a record with birthday February 29 is constructible
through the public handlers (add, then add-birthday), and when the
current year is not a leap year `get_upcoming_birthdays` returns the
ValueError of `date.replace` instead of a result; the roll-forward
branch (leap current year, next year non-leap) reaches the same
error.  Through the decorated handler the error surfaces as a
message. -/
theorem feb29_error_reachable :
    (add_contact ["Leap", "1234567890"] []).1 = .msg "Contact added."
    ∧ (run_handler ⟨2025, 3, 1⟩ .addBirthday ["Leap", "29.02.2024"]
        (add_contact ["Leap", "1234567890"] []).2).1 = .msg "Birthday added."
    ∧ get_upcoming_birthdays ⟨2025, 3, 1⟩
        (bookValues (run_handler ⟨2025, 3, 1⟩ .addBirthday ["Leap", "29.02.2024"]
          (add_contact ["Leap", "1234567890"] []).2).2)
      = .error "day is out of range for month"
    ∧ (run_handler ⟨2025, 3, 1⟩ .birthdays []
        (run_handler ⟨2025, 3, 1⟩ .addBirthday ["Leap", "29.02.2024"]
          (add_contact ["Leap", "1234567890"] []).2).2).1
      = .msg "Error: day is out of range for month"
    ∧ isLeap 2025 = false
    ∧ get_upcoming_birthdays ⟨2024, 3, 1⟩ [⟨"L2", [], some ⟨2020, 2, 29⟩⟩]
      = .error "day is out of range for month" := by
  decide

/-! ### Claim C8: birthday parse/format round trip -/

theorem digitChar_toNat (n : Nat) (h : n < 10) : (digitChar n).toNat = 48 + n := by
  interval_cases n <;> rfl

theorem digitChar_isDigit (n : Nat) (h : n < 10) : (digitChar n).isDigit = true := by
  interval_cases n <;> rfl

theorem digitsToNat_append (xs : List Char) (c : Char) :
    digitsToNat (xs ++ [c]) = 10 * digitsToNat xs + (c.toNat - 48) := by
  simp [digitsToNat, List.foldl_append]

theorem natDigitsAux_zero (fuel : Nat) : natDigitsAux fuel 0 = [] := by
  cases fuel <;> rfl

theorem natDigitsAux_spec (fuel n : Nat) (h1 : 0 < n) (h2 : n ≤ fuel) :
    digitsToNat (natDigitsAux fuel n) = n := by
  induction fuel generalizing n with
  | zero => omega
  | succ fuel ih =>
    cases n with
    | zero => omega
    | succ m =>
      show digitsToNat (natDigitsAux fuel ((m + 1) / 10) ++ [digitChar ((m + 1) % 10)]) = m + 1
      rw [digitsToNat_append, digitChar_toNat _ (by omega)]
      rcases Nat.eq_zero_or_pos ((m + 1) / 10) with hq | hq
      · rw [hq, natDigitsAux_zero]
        simp [digitsToNat]
        omega
      · rw [ih _ hq (by omega)]
        omega

theorem natDigitsAux_length (k : Nat) : ∀ fuel n, n ≤ fuel → 10 ^ k ≤ n → n < 10 ^ (k + 1) →
    (natDigitsAux fuel n).length = k + 1 := by
  induction k with
  | zero =>
    intro fuel n hf h1 h2
    cases fuel with
    | zero => simp at h1; omega
    | succ fuel =>
      cases n with
      | zero => simp at h1
      | succ m =>
        show (natDigitsAux fuel ((m + 1) / 10) ++ [digitChar ((m + 1) % 10)]).length = 1
        have hq : (m + 1) / 10 = 0 := by
          simp at h2
          omega
        rw [hq, natDigitsAux_zero]
        rfl
  | succ k ih =>
    intro fuel n hf h1 h2
    have h10 : 10 ≤ n := by
      calc 10 = 10 ^ 1 := by norm_num
        _ ≤ 10 ^ (k + 1) := Nat.pow_le_pow_right (by norm_num) (by omega)
        _ ≤ n := h1
    cases fuel with
    | zero => omega
    | succ fuel =>
      cases n with
      | zero => omega
      | succ m =>
        show (natDigitsAux fuel ((m + 1) / 10) ++ [digitChar ((m + 1) % 10)]).length = k + 2
        rw [List.length_append]
        have e1 : 10 ^ k ≤ (m + 1) / 10 := by
          rw [Nat.le_div_iff_mul_le (by norm_num)]
          calc 10 ^ k * 10 = 10 ^ (k + 1) := (pow_succ 10 k).symm
            _ ≤ m + 1 := h1
        have e2 : (m + 1) / 10 < 10 ^ (k + 1) := by
          rw [Nat.div_lt_iff_lt_mul (by norm_num)]
          calc m + 1 < 10 ^ (k + 1 + 1) := h2
            _ = 10 ^ (k + 1) * 10 := pow_succ 10 (k + 1)
        have e3 : (m + 1) / 10 ≤ fuel := by omega
        rw [ih fuel ((m + 1) / 10) e3 e1 e2]
        rfl

theorem natDigitsAux_all_digit (fuel : Nat) : ∀ n c, c ∈ natDigitsAux fuel n →
    c.isDigit = true := by
  induction fuel with
  | zero => intro n c hc; simp [natDigitsAux] at hc
  | succ fuel ih =>
    intro n c hc
    cases n with
    | zero => simp [natDigitsAux] at hc
    | succ m =>
      rw [show natDigitsAux (fuel + 1) (m + 1)
            = natDigitsAux fuel ((m + 1) / 10) ++ [digitChar ((m + 1) % 10)] from rfl,
          List.mem_append] at hc
      rcases hc with hc | hc
      · exact ih _ _ hc
      · rw [List.mem_singleton] at hc
        subst hc
        exact digitChar_isDigit _ (by omega)

theorem pad2_all_digit (n : Nat) : ∀ c ∈ pad2 n, c.isDigit = true := by
  intro c hc
  simp [pad2] at hc
  rcases hc with h | h <;> subst h <;> exact digitChar_isDigit _ (by omega)

theorem digitsToNat_pad2 (n : Nat) (h : n < 100) : digitsToNat (pad2 n) = n := by
  simp [pad2, digitsToNat, digitChar_toNat (n / 10 % 10) (by omega),
        digitChar_toNat (n % 10) (by omega)]
  omega

theorem splitDots_no_dot (a : List Char) (h : '.' ∉ a) : splitDots a = [a] := by
  induction a with
  | nil => rfl
  | cons c rest ih =>
    rw [List.mem_cons] at h
    push_neg at h
    have hc : ¬ (c = '.') := fun hcc => h.1 hcc.symm
    simp [splitDots, hc, ih h.2]

theorem splitDots_append (a rest : List Char) (h : '.' ∉ a) :
    splitDots (a ++ '.' :: rest) = a :: splitDots rest := by
  induction a with
  | nil => simp [splitDots]
  | cons c a ih =>
    rw [List.mem_cons] at h
    push_neg at h
    have hc : ¬ (c = '.') := fun hcc => h.1 hcc.symm
    simp [splitDots, hc, ih h.2]

theorem daysInMonth_le31 (y m : Nat) : daysInMonth y m ≤ 31 := by
  unfold daysInMonth
  split_ifs <;> omega

theorem parseDMY_fmtDate (y m d : Nat) (hv : validDate ⟨y, m, d⟩ = true)
    (h1 : 1000 ≤ y) (h2 : y ≤ 9999) :
    parseDMY (fmtDate ⟨y, m, d⟩) = some ⟨y, m, d⟩ := by
  simp [validDate, Bool.and_eq_true, decide_eq_true_eq] at hv
  obtain ⟨⟨⟨⟨hy1, hm1⟩, hm2⟩, hd1⟩, hd2⟩ := hv
  have hd31 : d ≤ 31 := le_trans hd2 (daysInMonth_le31 y m)
  have hy0 : (y == 0) = false := by simp; omega
  have hND : natDigits y = natDigitsAux y y := by simp [natDigits, hy0]
  have e3 : (10 : Nat) ^ 3 = 1000 := by norm_num
  have e4 : (10 : Nat) ^ 4 = 10000 := by norm_num
  have hYlen : (natDigits y).length = 4 :=
    hND ▸ natDigitsAux_length 3 y y (le_refl y) (by omega) (by omega)
  have hYval : digitsToNat (natDigits y) = y :=
    hND ▸ natDigitsAux_spec y y (by omega) (le_refl y)
  have hYdig : ∀ c ∈ natDigits y, c.isDigit = true :=
    hND ▸ natDigitsAux_all_digit y y
  have hdotY : '.' ∉ natDigits y := fun hc => by simpa using hYdig '.' hc
  have hdotP : ∀ n, '.' ∉ pad2 n := fun n hc => by simpa using pad2_all_digit n '.' hc
  have hsplit : splitDots (fmtDate ⟨y, m, d⟩).data = [pad2 d, pad2 m, natDigits y] := by
    show splitDots (pad2 d ++ '.' :: (pad2 m ++ '.' :: natDigits y)) = _
    rw [splitDots_append _ _ (hdotP d), splitDots_append _ _ (hdotP m),
        splitDots_no_dot _ hdotY]
  have hallD : (pad2 d).all Char.isDigit = true := by
    rw [List.all_eq_true]
    exact fun c hc => pad2_all_digit d c hc
  have hallM : (pad2 m).all Char.isDigit = true := by
    rw [List.all_eq_true]
    exact fun c hc => pad2_all_digit m c hc
  have hallY : (natDigits y).all Char.isDigit = true := by
    rw [List.all_eq_true]
    exact hYdig
  have hlen2 : ∀ n, (pad2 n).length = 2 := fun n => rfl
  have hdT : dayToken (pad2 d) = true := by
    simp [dayToken, hallD, hlen2, digitsToNat_pad2 d (by omega)]
    omega
  have hmT : monthToken (pad2 m) = true := by
    simp [monthToken, hallM, hlen2, digitsToNat_pad2 m (by omega)]
    omega
  have hyT : yearToken (natDigits y) = true := by
    simp [yearToken, hallY, hYlen]
  simp [parseDMY, hsplit, hdT, hmT, hyT, digitsToNat_pad2 d (by omega),
        digitsToNat_pad2 m (by omega), hYval, hy1, hd2]

/-- Claim C8: for every valid date with a four-digit year, formatting
as DD.MM.YYYY and constructing a Birthday from that string succeeds,
stores exactly that date, and `show_birthday` formats it back to the
original string; in particular "25.12.2000" round-trips. -/
theorem birthday_roundtrip (y m d : Nat) (today : Date)
    (hv : validDate ⟨y, m, d⟩ = true) (h1 : 1000 ≤ y) (h2 : y ≤ 9999)
    (hle : dateLe ⟨y, m, d⟩ today = true) :
    Birthday.init today (fmtDate ⟨y, m, d⟩) = .ok ⟨y, m, d⟩
    ∧ ∀ name phones, Record.show_birthday ⟨name, phones, some ⟨y, m, d⟩⟩
        = fmtDate ⟨y, m, d⟩ := by
  have hp := parseDMY_fmtDate y m d hv h1 h2
  have hlt : dateLt today ⟨y, m, d⟩ = false := (dateLt_false_iff _ _).mpr hle
  exact ⟨by simp [Birthday.init, hp, hlt], fun name phones => rfl⟩

/-- Witness for C8 at the concrete date of the spec scenario. -/
theorem birthday_roundtrip_witness :
    fmtDate ⟨2000, 12, 25⟩ = "25.12.2000"
    ∧ Birthday.init ⟨2025, 1, 1⟩ "25.12.2000" = .ok ⟨2000, 12, 25⟩
    ∧ Record.show_birthday ⟨"A", [], some ⟨2000, 12, 25⟩⟩ = "25.12.2000" := by
  have h := birthday_roundtrip 2000 12 25 ⟨2025, 1, 1⟩ (by decide) (by decide)
    (by decide) (by decide)
  have hf : fmtDate ⟨2000, 12, 25⟩ = "25.12.2000" := by decide
  refine ⟨hf, ?_, ?_⟩
  · rw [← hf]
    exact h.1
  · rw [h.2 "A" [], hf]

/-! ### Claim C1: the upcoming-birthday window -/

theorem processRecord_eq (today : Date) (r : Record) (b bty : Date)
    (hb : r.birthday = some b) (hocc : occurrence today b = .ok bty) :
    processRecord today r
      = .ok (if dateLe today bty && dateLe bty (addDays today 7)
             then [⟨r.name, fmtDate (congratulationDate bty)⟩] else []) := by
  unfold processRecord
  simp only [hb]
  rw [hocc]
  simp only [Bind.bind, Except.bind]
  split <;> rfl

theorem processRecord_names (today : Date) (r : Record) (es : List Entry)
    (h : processRecord today r = .ok es) : ∀ e ∈ es, e.name = r.name := by
  unfold processRecord at h
  cases hb : r.birthday with
  | none =>
    rw [hb] at h
    injection h with h
    subst h
    simp
  | some b =>
    simp only [hb] at h
    cases hocc : occurrence today b with
    | error m =>
      rw [hocc] at h
      simp only [Bind.bind, Except.bind] at h
      exact absurd h (by simp)
    | ok bty =>
      rw [hocc] at h
      simp only [Bind.bind, Except.bind] at h
      split at h <;> injection h with h <;> subst h <;> simp

theorem upcoming_cons (today : Date) (r : Record) (rest : List Record) (out : List Entry)
    (h : get_upcoming_birthdays today (r :: rest) = .ok out) :
    ∃ es tail, processRecord today r = .ok es
      ∧ get_upcoming_birthdays today rest = .ok tail ∧ out = es ++ tail := by
  unfold get_upcoming_birthdays at h
  cases hp : processRecord today r with
  | error m =>
    rw [hp] at h
    exact absurd h (by simp [Bind.bind, Except.bind])
  | ok es =>
    rw [hp] at h
    cases ht : get_upcoming_birthdays today rest with
    | error m =>
      rw [ht] at h
      exact absurd h (by simp [Bind.bind, Except.bind])
    | ok tail =>
      rw [ht] at h
      have h2 : Except.ok (es ++ tail) = Except.ok out := h
      injection h2 with h2
      exact ⟨es, tail, rfl, rfl, h2.symm⟩

theorem upcoming_names (today : Date) (rs : List Record) (out : List Entry)
    (h : get_upcoming_birthdays today rs = .ok out) :
    ∀ e ∈ out, ∃ r ∈ rs, e.name = r.name := by
  induction rs generalizing out with
  | nil =>
    unfold get_upcoming_birthdays at h
    injection h with h
    subst h
    simp
  | cons r rest ih =>
    obtain ⟨es, tail, hp, ht, rfl⟩ := upcoming_cons today r rest out h
    intro e he
    rcases List.mem_append.mp he with he | he
    · exact ⟨r, List.mem_cons_self r rest, processRecord_names today r es hp e he⟩
    · obtain ⟨r2, hr2, hn⟩ := ih tail ht e he
      exact ⟨r2, List.mem_cons_of_mem r hr2, hn⟩

theorem congratulationDate_cases (dd : Date) :
    congratulationDate dd
      = (if weekday dd = 5 then addDays dd 2
         else if weekday dd = 6 then addDays dd 1 else dd) := by
  unfold congratulationDate
  by_cases h5 : weekday dd = 5
  · simp [h5]
  · by_cases h6 : weekday dd = 6
    · simp [h5, h6]
    · simp [h5, h6]

/-- Claim C1: over records with pairwise distinct names (dict keys),
for every record with a birthday whose occurrence (this year, rolled
to next year when already past today) exists, the successful result of
`get_upcoming_birthdays` contains the pair of that record's name with
the occurrence formatted DD.MM.YYYY — shifted forward 2 days from a
Saturday and 1 day from a Sunday — if and only if the occurrence lies
in the inclusive window from today to today plus 7 days. -/
theorem upcoming_birthdays_window_iff (today : Date) (rs : List Record) (r : Record)
    (b bty : Date) (out : List Entry)
    (hnd : (rs.map Record.name).Nodup) (hr : r ∈ rs) (hb : r.birthday = some b)
    (hout : get_upcoming_birthdays today rs = .ok out)
    (hocc : occurrence today b = .ok bty) :
    ((⟨r.name, fmtDate (if weekday bty = 5 then addDays bty 2
        else if weekday bty = 6 then addDays bty 1 else bty)⟩ : Entry) ∈ out)
    ↔ (dateLe today bty = true ∧ dateLe bty (addDays today 7) = true) := by
  induction rs generalizing out with
  | nil => cases hr
  | cons r0 rest ih =>
    obtain ⟨es, tail, hp, ht, rfl⟩ := upcoming_cons today r0 rest out hout
    rw [List.map_cons, List.nodup_cons] at hnd
    rw [List.mem_append, ← congratulationDate_cases bty]
    rcases List.mem_cons.mp hr with heq | hr2
    · subst heq
      have hes' := processRecord_eq today r b bty hb hocc
      rw [hes'] at hp
      injection hp with hes
      have hne : (⟨r.name, fmtDate (congratulationDate bty)⟩ : Entry) ∉ tail := by
        intro hmem
        obtain ⟨r2, hr2, hn⟩ := upcoming_names today rest tail ht _ hmem
        have hn2 : r.name = r2.name := hn
        exact hnd.1 (hn2 ▸ List.mem_map_of_mem Record.name hr2)
      cases hc : (dateLe today bty && dateLe bty (addDays today 7)) with
      | true =>
        rw [hc] at hes
        simp only [if_pos rfl] at hes
        constructor
        · intro _
          exact ⟨(Bool.and_eq_true _ _ |>.mp hc).1, (Bool.and_eq_true _ _ |>.mp hc).2⟩
        · intro _
          rw [← hes]
          simp
      | false =>
        rw [hc] at hes
        simp only [Bool.false_eq_true, if_false] at hes
        constructor
        · intro hmem
          rcases hmem with hmem | hmem
          · rw [← hes] at hmem
            simp at hmem
          · exact absurd hmem hne
        · rintro ⟨h1, h2⟩
          rw [h1, h2] at hc
          simp at hc
    · have hname_ne : r.name ≠ r0.name := by
        intro he
        exact hnd.1 (he ▸ List.mem_map_of_mem Record.name hr2)
      have hnotin : (⟨r.name, fmtDate (congratulationDate bty)⟩ : Entry) ∉ es := by
        intro hmem
        exact hname_ne (processRecord_names today r0 es hp _ hmem)
      have hiff := ih tail hnd.2 hr2 ht
      rw [← congratulationDate_cases bty] at hiff
      constructor
      · intro hmem
        rcases hmem with hmem | hmem
        · exact absurd hmem hnotin
        · exact hiff.mp hmem
      · intro hw
        exact Or.inr (hiff.mpr hw)

/-- Witness for C1: the spec scenario (today Monday 2024-06-10,
birthday 15.06.1990, occurrence Saturday 15.06.2024, congratulation
Monday 17.06.2024). -/
theorem upcoming_birthdays_window_iff_witness :
    (⟨"John", fmtDate (if weekday ⟨2024, 6, 15⟩ = 5 then addDays ⟨2024, 6, 15⟩ 2
        else if weekday ⟨2024, 6, 15⟩ = 6 then addDays ⟨2024, 6, 15⟩ 1
        else ⟨2024, 6, 15⟩)⟩ : Entry)
      ∈ [(⟨"John", "17.06.2024"⟩ : Entry)]
    ∧ get_upcoming_birthdays ⟨2024, 6, 10⟩ [⟨"John", ["1234567890"], some ⟨1990, 6, 15⟩⟩]
      = .ok [(⟨"John", "17.06.2024"⟩ : Entry)] := by
  refine ⟨?_, by decide⟩
  exact (upcoming_birthdays_window_iff ⟨2024, 6, 10⟩
      [⟨"John", ["1234567890"], some ⟨1990, 6, 15⟩⟩]
      ⟨"John", ["1234567890"], some ⟨1990, 6, 15⟩⟩
      ⟨1990, 6, 15⟩ ⟨2024, 6, 15⟩ [(⟨"John", "17.06.2024"⟩ : Entry)]
      (by decide) (by decide) rfl (by decide) (by decide)).mpr (by decide)
